import Mathlib

/-!
Shallow embedding of the core of `cluster-deployment-automation`:
the cluster configuration resolver (`clustersConfig.py`, `ClustersConfig.__init__`)
and the virtual-network reconciler (`virtualBridge.py`, `VirBridge`).

Python dictionaries are modelled as association lists in insertion order
(`Dict`); scalar YAML values as `Val`; a Python `KeyError` (fatal) as `none`
in the `Option` monad.  Shell interaction in the reconciler is modelled by an
environment `Env` mapping each command string to its result, and each
reconciler method is a function returning the ordered list of commands it
issued together with a flag recording whether the process exited fatally.
-/

/-- A scalar YAML/Python value as it occurs in the config fields the
resolver defaults: `None`, booleans, integers, strings. -/
inductive Val where
  | vnull : Val
  | vbool : Bool → Val
  | vint : Int → Val
  | vstr : String → Val
deriving DecidableEq, Repr

/-- Python `str()` on a scalar value (used by f-string interpolation). -/
def pyStr : Val → String
  | Val.vnull => "None"
  | Val.vbool true => "True"
  | Val.vbool false => "False"
  | Val.vint n => toString n
  | Val.vstr s => s

/-- A Python dict with scalar values, in insertion order. -/
abbrev Dict := List (String × Val)

/-- Python `d[k]` / `k in d` lookup: first binding wins (a dict has at most
one binding per key; we model lookup as leftmost). -/
def getKey (d : Dict) (k : String) : Option Val :=
  d.lookup k

/-- Python `if k not in d: d[k] = v` — insertion-order append, never
overwrites an existing binding. -/
def setDefault (d : Dict) (k : String) (v : Val) : Dict :=
  if (getKey d k).isSome then d else d ++ [(k, v)]

/-- `os.path.join(a, b)` for the relative second components the resolver
builds (never absolute, never empty). -/
def pathJoin (a b : String) : String :=
  if a.endsWith "/" then a ++ b else a ++ "/" ++ b

/-! ## The cluster configuration resolver (`ClustersConfig.__init__`)

The YAML document has a top-level `clusters` list; each cluster is a dict
whose list-valued keys (`masters`, `workers`, `hosts`) we split out of the
scalar-valued remainder `top`.  `none` for such a key models the key being
absent from the input (`"masters" not in cc`). -/

/-- One cluster of the input document, before defaulting. -/
structure RawCluster where
  top : Dict
  masters : Option (List Dict)
  workers : Option (List Dict)
  hosts : Option (List Dict)
deriving DecidableEq, Repr

/-- One cluster after the default cascade: the three list-valued keys are
always present. -/
structure Cluster where
  top : Dict
  masters : List Dict
  workers : List Dict
  hosts : List Dict
deriving DecidableEq, Repr

/-- A resolved cluster, reread as input (every key present). -/
def Cluster.toRaw (c : Cluster) : RawCluster :=
  ⟨c.top, some c.masters, some c.workers, some c.hosts⟩

/-- Defaults for the scalar top-level keys of a cluster, in source order:
`kubeconfig` (built from `getcwd()` and `cc["name"]` — a `KeyError` when
`name` is absent), `preconfig`, `postconfig`, `version`, `external_port`,
`network_api_port`, `proxy`. -/
def topChain (top1 : Dict) : Dict :=
  setDefault (setDefault (setDefault (setDefault (setDefault (setDefault top1
    "preconfig" (Val.vstr "")) "postconfig" (Val.vstr ""))
    "version" (Val.vstr "4.13.0-ec.3")) "external_port" (Val.vstr "auto"))
    "network_api_port" (Val.vstr "auto")) "proxy" Val.vnull

def resolveTop (cwd : String) (top0 : Dict) : Option Dict := do
  let top1 ←
    if (getKey top0 "kubeconfig").isSome then some top0
    else do
      let nm ← getKey top0 "name"
      some (top0 ++ [("kubeconfig",
        Val.vstr (pathJoin cwd ("kubeconfig." ++ pyStr nm)))])
  some (topChain top1)

/-- First defaulting pass over each node of `masters + workers`:
`disk_size` 48, `preallocated` True, `os_variant` "rhel8.6". -/
def nodeDefaults1 (n : Dict) : Dict :=
  setDefault (setDefault (setDefault n "disk_size" (Val.vint 48))
    "preallocated" (Val.vbool true)) "os_variant" (Val.vstr "rhel8.6")

/-- Second defaulting pass over each node: BMC fields and `image_path`
(built from `cc["name"]` and `node["name"]` — a `KeyError` when the node has
no `name` key). -/
def bmcChain (n0 : Dict) : Dict :=
  setDefault (setDefault (setDefault n0 "bmc_ip" Val.vnull)
    "bmc_user" (Val.vstr "root")) "bmc_password" (Val.vstr "calvin")

def nodeDefaults2 (top : Dict) (n0 : Dict) : Option Dict :=
  if (getKey (bmcChain n0) "image_path").isSome then some (bmcChain n0)
  else do
    let cn ← getKey top "name"
    let nm ← getKey (bmcChain n0) "name"
    some (bmcChain n0 ++ [("image_path", Val.vstr (pathJoin
      ("/home/" ++ pyStr cn ++ "_guests_images") (pyStr nm ++ ".qcow2")))])

/-- Per-host defaults: `network_api_port` inherited from the cluster,
`username` "core", `password` None, `pre_installed` the *string* "True". -/
def hostDefaults (nap : Val) (h0 : Dict) : Dict :=
  setDefault (setDefault (setDefault (setDefault h0
    "network_api_port" nap) "username" (Val.vstr "core"))
    "password" Val.vnull) "pre_installed" (Val.vstr "True")

/-- The `node` values not yet in `seen`, in order of first appearance
(the pure content of the host-synthesis loop). -/
def newVals (seen : List Val) : List Val → List Val
  | [] => []
  | v :: rest =>
    if seen.contains v then newVals seen rest
    else v :: newVals (seen ++ [v]) rest

/-- The host-synthesis loop: for each node of `masters + workers`, read
`h["node"]` (a `KeyError` when absent) and append `{"name": that value}` to
the host list unless the value is already a known host name. -/
def addHosts (hosts : List Dict) (seen : List Val) :
    List Dict → Option (List Dict)
  | [] => some hosts
  | n :: rest => do
    let nd ← getKey n "node"
    if seen.contains nd then addHosts hosts seen rest
    else addHosts (hosts ++ [[("name", nd)]]) (seen ++ [nd]) rest

/-- The body of the defaulting loop of `ClustersConfig.__init__` for one
cluster `cc`, in source order: absent `masters`/`workers`/`hosts` become
empty lists, scalar top-level defaults, first node pass, host synthesis
(which reads each existing host's `name` and each node's `node` key),
second node pass, per-host defaults. -/
def resolveCluster (cwd : String) (cc : RawCluster) : Option Cluster := do
  let masters0 := cc.masters.getD []
  let workers0 := cc.workers.getD []
  let top ← resolveTop cwd cc.top
  let hosts0 := cc.hosts.getD []
  let masters1 := masters0.map nodeDefaults1
  let workers1 := workers0.map nodeDefaults1
  let names0 ← hosts0.mapM (fun h => getKey h "name")
  let hosts1 ← addHosts hosts0 names0 (masters1 ++ workers1)
  let masters2 ← masters1.mapM (nodeDefaults2 top)
  let workers2 ← workers1.mapM (nodeDefaults2 top)
  let nap ← getKey top "network_api_port"
  some ⟨top, masters2, workers2, hosts1.map (hostDefaults nap)⟩

/-- Document-level construction (`__init__` as written).  `_load_full_config`
sets `fullConfig` to `clusters[0]` of the parsed document (the template pass,
the identity on template-free text, reads `fullConfig["name"]`), and the
defaulting loop header then subscripts `fullConfig` — by now the first
*cluster* — with `"clusters"`: a `KeyError` when the first cluster has no
such key, and a `TypeError` during iteration when it holds a scalar.  Either
way construction aborts before any defaulting; `resolveCluster` is the loop
body that would run per cluster. -/
def constructSpec (cwd : String) (doc : List RawCluster) : Option Cluster := do
  let cc ← doc.head?
  let _ ← getKey cc.top "name"
  match getKey cc.top "clusters", cwd with
  | _, _ => none

/-- `re.sub("[^0-9]", "", name)`: every non-digit character stripped. -/
def digitsOnly (s : String) : String :=
  String.mk (s.toList.filter Char.isDigit)

/-- The template function `worker_number(a)` of `ClustersConfig._apply_jinja`:
`self._clusters.workers[a]` (the topology provider's resolved worker names
for the invoking host's cluster) with every non-digit stripped; `none`
models the `IndexError` for an out-of-range index. -/
def worker_number (workers : List String) (a : Nat) : Option String :=
  (workers.get? a).map digitsOnly

/-- The template function `worker_name(a)` of `ClustersConfig._apply_jinja`. -/
def worker_name (workers : List String) (a : Nat) : Option String :=
  workers.get? a

/-! ## The virtual-network reconciler (`VirBridge`, `virtualBridge.py`)

Shell interaction is modelled by an environment mapping each command string
to its `{returncode, out, err}` result (and each file path to its contents).
Each method is a function from the environment to the ordered list of
command strings it issues paired with a flag that is `true` when the process
exited fatally (`run_or_die` on a non-zero exit, `logger.error_and_exit`, or
`sys.exit`).  `run` never sets the flag.  File writes and `time.sleep` issue
no commands and are not part of the trace. -/

/-- Substring test on char lists: does the second list start with the
first? -/
def leads : List Char → List Char → Bool
  | [], _ => true
  | _ :: _, [] => false
  | a :: as, b :: bs => a == b && leads as bs

/-- Does the second list contain the first as a contiguous sublist? -/
def hasSub (pat : List Char) : List Char → Bool
  | [] => leads pat []
  | c :: cs => leads pat (c :: cs) || hasSub pat cs

/-- Python's `pat in hay` on strings. -/
def containsSub (hay pat : String) : Bool :=
  hasSub pat.toList hay.toList

/-- What `host.run(cmd)` returns. -/
structure CmdResult where
  returncode : Int
  out : String
  err : String

/-- The external world: each command's result, each file's contents. -/
structure Env where
  results : String → CmdResult
  readFile : String → String

/-- Sequencing of traced steps: a fatal first step cuts the run short. -/
def seqT (r : List String × Bool) (k : Unit → List String × Bool) :
    List String × Bool :=
  if r.2 then r else (r.1 ++ (k ()).1, (k ()).2)

/-- `run_or_die`: issue the command, exit fatally on a non-zero return. -/
def runOrDie (env : Env) (c : String) : List String × Bool :=
  ([c], (env.results c).returncode != 0)

/-- A node as `setup_dhcp_entry` reads it: `cfg.ip` and `cfg.mac` are
`Optional` in the source. -/
structure NodeConfig where
  name : String
  ip : Option String
  mac : Option String

/-- Python `str()` under f-string interpolation of an `Optional[str]`. -/
def pyOptStr : Option String → String
  | none => "None"
  | some s => s

def dumpxmlCmd : String := "virsh net-dumpxml default"

def leasesCmd : String := "virsh net-dhcp-leases default"

def delHostCmd (name : String) : String :=
  "virsh net-update default delete ip-dhcp-host \"<host name='" ++ name ++
    "'/>\" --live --config"

def addHostCmd (mac name ip : String) : String :=
  "virsh net-update default add ip-dhcp-host \"<host mac='" ++ mac ++
    "' name='" ++ name ++ "' ip='" ++ ip ++ "'/>\" --live --config"

/-- `VirBridge.setup_dhcp_entry`: exit fatally when the node has no IP;
dump the static leases (`run_or_die`) and delete a same-named entry first
when `'{name}'` occurs in the XML; then read the active leases (`run`) and
exit fatally when `"{name} "` (trailing space) occurs there; otherwise add
the static entry (`run_or_die`), interpolating a missing MAC as `None`. -/
def setup_dhcp_entry (env : Env) (cfg : NodeConfig) : List String × Bool :=
  match cfg.ip with
  | none => ([], true)
  | some ip =>
    seqT (runOrDie env dumpxmlCmd) fun _ =>
    seqT (if containsSub (env.results dumpxmlCmd).out ("'" ++ cfg.name ++ "'")
          then runOrDie env (delHostCmd cfg.name) else ([], false)) fun _ =>
    seqT ([leasesCmd],
          containsSub (env.results leasesCmd).out (cfg.name ++ " ")) fun _ =>
    runOrDie env (addHostCmd (pyOptStr cfg.mac) cfg.name ip)

/-- `VirBridge._ensure_started`: destroy (failure ignored), undefine
(fatal unless the stderr reports "Network not found"), remove a stale
bridge device (failure ignored), define (`run_or_die`), take the API
interface down (`run`), start (`run_or_die`), bring the interface up
(`run`). -/
def ensure_started (env : Env) (api_network bridge_xml : String) :
    List String × Bool :=
  seqT (["virsh net-destroy default"], false) fun _ =>
  seqT (["virsh net-undefine default"],
    ((env.results "virsh net-undefine default").returncode != 0 &&
      !(containsSub (env.results "virsh net-undefine default").err
        "Network not found"))) fun _ =>
  seqT (["ip link delete virbr0"], false) fun _ =>
  seqT (runOrDie env ("virsh net-define " ++ bridge_xml)) fun _ =>
  seqT (["ip link set " ++ api_network ++ " down"], false) fun _ =>
  seqT (runOrDie env "virsh net-start default") fun _ =>
  (["ip link set " ++ api_network ++ " up"], false)

def delRangeCmd (oldRange : String) : String :=
  "virsh net-update default delete ip-dhcp-range \"<range start='" ++
    oldRange ++ "' end='192.168.122.254'/>\" --live --config"

def addRangeCmd (newRange : String) : String :=
  "virsh net-update default add ip-dhcp-range \"<range start='" ++
    newRange ++ "' end='192.168.122.254'/>\" --live --config"

/-- `VirBridge.limit_dhcp_range`: only acts when the current XML still
holds the old range start; both the delete and the add go through `run`
(results only logged at debug level), never through `run_or_die`. -/
def limit_dhcp_range (env : Env) (oldRange newRange : String) :
    List String × Bool :=
  seqT ([dumpxmlCmd], false) fun _ =>
  if containsSub (env.results dumpxmlCmd).out
      ("range start='" ++ oldRange ++ "'") then
    seqT ([delRangeCmd oldRange], false) fun _ => ([addRangeCmd newRange], false)
  else ([], false)

def qemuConfPath : String := "/etc/libvirt/qemu.conf"

def qemuUserRoot : String := "\nuser = \"root\""

def sedQemuCmd : String :=
  "sed -e 's/#\\(user\\|group\\) = \".*\"$/\\1 = \"root\"/' -i /etc/libvirt/qemu.conf"

/-- `VirBridge._ensure_run_as_root`: return when the config already holds
`\nuser = "root"` (the source tests the same pattern twice); otherwise patch
with sed (`run`) and restart the daemon (`run_or_die`). -/
def ensure_run_as_root (env : Env) : List String × Bool :=
  if containsSub (env.readFile qemuConfPath) qemuUserRoot then ([], false)
  else seqT ([sedQemuCmd], false) fun _ =>
    runOrDie env "systemctl restart libvirtd"

/-- `VirBridge.configure`: enable the daemon (`run_or_die`), ensure it runs
as root, dump the current network XML (`run`), and when `stp='off'` is
missing or the stale default range `192.168.122.2` is present, recreate:
`_ensure_started`, `limit_dhcp_range`, restart (`run_or_die`).  The network
descriptor is written to `/tmp/vir_bridge.xml`; file writes and sleeps issue
no commands. -/
def configure (env : Env) (api_network : String) : List String × Bool :=
  seqT (runOrDie env "systemctl enable libvirtd --now") fun _ =>
  seqT (ensure_run_as_root env) fun _ =>
  seqT ([dumpxmlCmd], false) fun _ =>
  if !(containsSub (env.results dumpxmlCmd).out "stp='off'") ||
      containsSub (env.results dumpxmlCmd).out "range start='192.168.122.2'" then
    seqT (ensure_started env api_network "/tmp/vir_bridge.xml") fun _ =>
    seqT (limit_dhcp_range env "192.168.122.2" "192.168.122.129") fun _ =>
    runOrDie env "systemctl restart libvirtd"
  else ([], false)

/-- `a` is issued at an earlier position of the trace than `b`. -/
def issuedBefore (t : List String) (a b : String) : Prop :=
  ∃ i j, i < j ∧ t.get? i = some a ∧ t.get? j = some b

/-- Does a command string start the add-entry invocation? -/
def isAddEntry (c : String) : Bool :=
  leads ("virsh net-update default add ip-dhcp-host").toList c.toList

/-- Does a command string start the delete-entry invocation? -/
def isDelEntry (c : String) : Bool :=
  leads ("virsh net-update default delete ip-dhcp-host").toList c.toList

/-- An environment whose active-lease output holds only the longer name
`bm-worker-20`; every command succeeds. -/
def envLeaseMiss : Env :=
  ⟨fun c => if c = leasesCmd then ⟨0, "bm-worker-20 52:54:00:aa:bb:cc", ""⟩
    else ⟨0, "", ""⟩, fun _ => ""⟩

/-- An environment whose active-lease output holds `bm-worker-2 `
(trailing-space-delimited); every command succeeds. -/
def envLeaseHit : Env :=
  ⟨fun c => if c = leasesCmd then ⟨0, "bm-worker-2 52:54:00:aa:bb:cc", ""⟩
    else ⟨0, "", ""⟩, fun _ => ""⟩

/-- An environment where the stale dynamic range is present and the
range-delete command fails with exit code 1 (every other command
succeeds). -/
def envRangeDelFails : Env :=
  ⟨fun c => if c = dumpxmlCmd then ⟨0, "range start='192.168.122.2'", ""⟩
    else if c = delRangeCmd "192.168.122.2" then ⟨1, "", "internal error"⟩
    else ⟨0, "", ""⟩, fun _ => ""⟩

/-- An environment where `virsh net-undefine default` fails with exit code 1
and a stderr that does not report "Network not found". -/
def envUndefineFails : Env :=
  ⟨fun c => if c = "virsh net-undefine default" then ⟨1, "", "internal error"⟩
    else ⟨0, "", ""⟩, fun _ => ""⟩

theorem getKey_append (d e : Dict) (k : String) :
    getKey (d ++ e) k = ((getKey d k).elim (getKey e k) some) := by
  induction d with
  | nil => simp [getKey]
  | cons p d ih =>
    by_cases h : k == p.1 <;> simp [getKey, List.lookup, h] at ih ⊢
    exact ih

theorem getKey_setDefault_same (d : Dict) (k : String) (v : Val) :
    getKey (setDefault d k v) k = some ((getKey d k).getD v) := by
  unfold setDefault
  cases h : getKey d k with
  | some w => simp [h]
  | none =>
    simp only [h, Option.isSome_none, Bool.false_eq_true, if_false, Option.getD_none]
    rw [show getKey (d ++ [(k, v)]) k = _ from getKey_append d [(k, v)] k, h]
    simp [getKey, List.lookup]

theorem getKey_setDefault_of_some (d : Dict) (k k' : String) (v w : Val)
    (h : getKey d k' = some w) : getKey (setDefault d k v) k' = some w := by
  unfold setDefault
  cases hk : (getKey d k).isSome <;> simp [h, getKey_append]

theorem setDefault_of_isSome (d : Dict) (k : String) (v : Val)
    (h : (getKey d k).isSome) : setDefault d k v = d := by
  simp [setDefault, h]

theorem isSome_setDefault (d : Dict) (k k' : String) (v : Val)
    (h : (getKey d k').isSome) : (getKey (setDefault d k v) k').isSome := by
  rcases Option.isSome_iff_exists.mp h with ⟨w, hw⟩
  simp [getKey_setDefault_of_some d k k' v w hw]

/-! ## Supporting lemmas: `mapM` over `Option`, `newVals`, `addHosts` -/

theorem mapM_eq_some_iff {α β : Type} (f : α → Option β) :
    ∀ (l : List α) (l' : List β),
      l.mapM f = some l' ↔ List.Forall₂ (fun a b => f a = some b) l l' := by
  intro l
  induction l with
  | nil =>
    intro l'
    rw [List.mapM_nil]
    cases l' <;> simp [Option.pure_def]
  | cons a t ih =>
    intro l'
    rw [List.mapM_cons]
    constructor
    · intro h
      rcases Option.bind_eq_some.mp h with ⟨b, hb, h2⟩
      rcases Option.bind_eq_some.mp h2 with ⟨t', ht, h3⟩
      cases Option.some.inj h3
      exact List.Forall₂.cons hb ((ih t').mp ht)
    · intro h
      cases h with
      | cons hb ht =>
        rw [hb]
        have := (ih _).mpr ht
        simp only [Option.bind_eq_bind, Option.some_bind, this]
        rfl

theorem mapM_eq_some_self {α : Type} (f : α → Option α) (l : List α)
    (h : ∀ x ∈ l, f x = some x) : l.mapM f = some l :=
  (mapM_eq_some_iff f l l).mpr (by
    induction l with
    | nil => exact List.Forall₂.nil
    | cons a t ih =>
      exact List.Forall₂.cons (h a (List.mem_cons_self a t))
        (ih (fun x hx => h x (List.mem_cons_of_mem a hx))))

theorem newVals_subset_mem (seen : List Val) (vs : List Val) (v : Val)
    (hv : v ∈ vs) : v ∈ seen ++ newVals seen vs := by
  induction vs generalizing seen with
  | nil => cases hv
  | cons a rest ih =>
    unfold newVals
    by_cases h : seen.contains a = true
    · rw [if_pos h]
      rcases List.mem_cons.mp hv with rfl | hmem
      · exact List.mem_append_left _ (List.elem_iff.mp h)
      · exact ih seen hmem
    · rw [if_neg h]
      rcases List.mem_cons.mp hv with rfl | hmem
      · exact List.mem_append_right _ (List.mem_cons_self _ _)
      · have hthis := ih (seen ++ [a]) hmem
        rcases List.mem_append.mp hthis with hl | hr
        · rcases List.mem_append.mp hl with h1 | h2
          · exact List.mem_append_left _ h1
          · refine List.mem_append_right _ ?_
            rw [List.mem_singleton.mp h2]
            exact List.mem_cons_self _ _
        · exact List.mem_append_right _ (List.mem_cons_of_mem a hr)

theorem newVals_eq_nil (seen : List Val) (vs : List Val)
    (h : ∀ v ∈ vs, v ∈ seen) : newVals seen vs = [] := by
  induction vs with
  | nil => rfl
  | cons a rest ih =>
    unfold newVals
    have ha : seen.contains a = true :=
      List.elem_iff.mpr (h a (List.mem_cons_self a rest))
    rw [if_pos ha]
    exact ih (fun v hv => h v (List.mem_cons_of_mem a hv))

theorem not_mem_seen_of_mem_newVals (seen : List Val) (vs : List Val) (v : Val)
    (hv : v ∈ newVals seen vs) : v ∉ seen := by
  induction vs generalizing seen with
  | nil => cases hv
  | cons a rest ih =>
    unfold newVals at hv
    by_cases h : seen.contains a = true
    · rw [if_pos h] at hv
      exact ih seen hv
    · rw [if_neg h] at hv
      rcases List.mem_cons.mp hv with rfl | hmem
      · exact fun hc => h (List.elem_iff.mpr hc)
      · exact fun hc => ih (seen ++ [a]) hmem (List.mem_append_left _ hc)

theorem newVals_nodup (seen : List Val) (vs : List Val) :
    (newVals seen vs).Nodup := by
  induction vs generalizing seen with
  | nil => exact List.nodup_nil
  | cons a rest ih =>
    unfold newVals
    by_cases h : seen.contains a = true
    · rw [if_pos h]; exact ih seen
    · rw [if_neg h]
      refine List.Nodup.cons ?_ (ih (seen ++ [a]))
      intro hmem
      exact not_mem_seen_of_mem_newVals _ _ _ hmem
        (List.mem_append_right seen (List.mem_singleton_self a))

theorem addHosts_eq (nodes : List Dict) :
    ∀ (hosts : List Dict) (seen : List Val),
      addHosts hosts seen nodes =
        (nodes.mapM (fun n => getKey n "node")).map
          (fun vs => hosts ++ (newVals seen vs).map (fun v => [("name", v)])) := by
  induction nodes with
  | nil =>
    intro hosts seen
    rw [List.mapM_nil]
    simp [addHosts, newVals, Option.pure_def]
  | cons n rest ih =>
    intro hosts seen
    rw [List.mapM_cons]
    unfold addHosts
    cases hnd : getKey n "node" with
    | none => simp
    | some nd =>
      by_cases h : seen.contains nd = true
      · have hmem : nd ∈ seen := List.elem_iff.mp h
        simp only [hnd, Option.some_bind, if_pos h, ih, Option.bind_eq_bind]
        cases hrest : rest.mapM (fun n => getKey n "node") with
        | none => simp
        | some vs => simp [newVals, hmem, Option.pure_def]
      · have hmem : nd ∉ seen := fun hc => h (List.elem_iff.mpr hc)
        simp only [hnd, Option.some_bind, if_neg h, ih, Option.bind_eq_bind]
        cases hrest : rest.mapM (fun n => getKey n "node") with
        | none => simp
        | some vs => simp [newVals, hmem, Option.pure_def, List.append_assoc]

/-- Unfolding of a successful run of `resolveCluster` into its stages. -/
theorem resolveCluster_eq_some_iff (cwd : String) (cc : RawCluster) (c : Cluster) :
    resolveCluster cwd cc = some c ↔
      ∃ top names0 hosts1 ms2 ws2 nap,
        resolveTop cwd cc.top = some top ∧
        (cc.hosts.getD []).mapM (fun h => getKey h "name") = some names0 ∧
        addHosts (cc.hosts.getD []) names0
          ((cc.masters.getD []).map nodeDefaults1 ++
            (cc.workers.getD []).map nodeDefaults1) = some hosts1 ∧
        ((cc.masters.getD []).map nodeDefaults1).mapM (nodeDefaults2 top) = some ms2 ∧
        ((cc.workers.getD []).map nodeDefaults1).mapM (nodeDefaults2 top) = some ws2 ∧
        getKey top "network_api_port" = some nap ∧
        c = ⟨top, ms2, ws2, hosts1.map (hostDefaults nap)⟩ := by
  unfold resolveCluster
  simp only [Option.bind_eq_bind, Option.bind_eq_some, Option.some.injEq]
  constructor
  · rintro ⟨top, h1, names0, h2, hosts1, h3, ms2, h4, ws2, h5, nap, h6, h7⟩
    exact ⟨top, names0, hosts1, ms2, ws2, nap, h1, h2, h3, h4, h5, h6, h7.symm⟩
  · rintro ⟨top, names0, hosts1, ms2, ws2, nap, h1, h2, h3, h4, h5, h6, h7⟩
    exact ⟨top, h1, names0, h2, hosts1, h3, ms2, h4, ws2, h5, nap, h6, h7.symm⟩

theorem getKey_append_of_some (d e : Dict) (k : String) (v : Val)
    (h : getKey d k = some v) : getKey (d ++ e) k = some v := by
  rw [getKey_append, h]
  rfl

theorem getKey_append_of_none (d e : Dict) (k : String)
    (h : getKey d k = none) : getKey (d ++ e) k = getKey e k := by
  rw [getKey_append, h]
  rfl

theorem topChain_pres (t : Dict) (k : String) (v : Val)
    (h : getKey t k = some v) : getKey (topChain t) k = some v := by
  unfold topChain
  exact getKey_setDefault_of_some _ _ _ _ _ (getKey_setDefault_of_some _ _ _ _ _
    (getKey_setDefault_of_some _ _ _ _ _ (getKey_setDefault_of_some _ _ _ _ _
      (getKey_setDefault_of_some _ _ _ _ _ (getKey_setDefault_of_some _ _ _ _ _ h)))))

theorem topChain_pres_isSome (t : Dict) (k : String)
    (h : (getKey t k).isSome) : (getKey (topChain t) k).isSome := by
  rcases Option.isSome_iff_exists.mp h with ⟨v, hv⟩
  simp [topChain_pres t k v hv]

theorem topChain_keys (t : Dict) :
    ((getKey (topChain t) "preconfig").isSome ∧
     (getKey (topChain t) "postconfig").isSome ∧
     (getKey (topChain t) "version").isSome ∧
     (getKey (topChain t) "external_port").isSome ∧
     (getKey (topChain t) "network_api_port").isSome ∧
     (getKey (topChain t) "proxy").isSome) := by
  unfold topChain
  refine ⟨?_, ?_, ?_, ?_, ?_, ?_⟩ <;>
    repeat
      first
      | (rw [getKey_setDefault_same]; simp)
      | apply isSome_setDefault

theorem topChain_of_keys (t : Dict)
    (h1 : (getKey t "preconfig").isSome) (h2 : (getKey t "postconfig").isSome)
    (h3 : (getKey t "version").isSome) (h4 : (getKey t "external_port").isSome)
    (h5 : (getKey t "network_api_port").isSome) (h6 : (getKey t "proxy").isSome) :
    topChain t = t := by
  unfold topChain
  rw [setDefault_of_isSome _ _ _ h1, setDefault_of_isSome _ _ _ h2,
    setDefault_of_isSome _ _ _ h3, setDefault_of_isSome _ _ _ h4,
    setDefault_of_isSome _ _ _ h5, setDefault_of_isSome _ _ _ h6]

/-- A successful `resolveTop` is `topChain` of either the input (when
`kubeconfig` is present) or the input with `kubeconfig` appended. -/
theorem resolveTop_some_cases (cwd : String) (t0 t : Dict)
    (h : resolveTop cwd t0 = some t) :
    ∃ t1, t = topChain t1 ∧ (getKey t1 "kubeconfig").isSome ∧
      (t1 = t0 ∨ ∃ nm, getKey t0 "kubeconfig" = none ∧ getKey t0 "name" = some nm ∧
        t1 = t0 ++ [("kubeconfig",
          Val.vstr (pathJoin cwd ("kubeconfig." ++ pyStr nm)))]) := by
  unfold resolveTop at h
  by_cases hk : (getKey t0 "kubeconfig").isSome
  · rw [if_pos hk] at h
    simp only [Option.bind_eq_bind, Option.some_bind, Option.some.injEq] at h
    exact ⟨t0, h.symm, hk, Or.inl rfl⟩
  · rw [if_neg hk] at h
    cases hnm : getKey t0 "name" with
    | none => rw [hnm] at h; simp at h
    | some nm =>
      rw [hnm] at h
      simp only [Option.bind_eq_bind, Option.some_bind, Option.some.injEq] at h
      refine ⟨_, h.symm, ?_, Or.inr ⟨nm, Option.not_isSome_iff_eq_none.mp hk, rfl, rfl⟩⟩
      rw [getKey_append_of_none _ _ _ (Option.not_isSome_iff_eq_none.mp hk)]
      simp [getKey, List.lookup]

theorem resolveTop_pres (cwd : String) (t0 t : Dict)
    (h : resolveTop cwd t0 = some t) (k : String) (v : Val)
    (hv : getKey t0 k = some v) : getKey t k = some v := by
  rcases resolveTop_some_cases cwd t0 t h with ⟨t1, rfl, _, ht1 | ⟨nm, _, _, ht1⟩⟩
  · exact topChain_pres _ _ _ (ht1 ▸ hv)
  · exact topChain_pres _ _ _ (ht1 ▸ getKey_append_of_some _ _ _ _ hv)

theorem resolveTop_keys (cwd : String) (t0 t : Dict)
    (h : resolveTop cwd t0 = some t) :
    ((getKey t "kubeconfig").isSome ∧ (getKey t "preconfig").isSome ∧
     (getKey t "postconfig").isSome ∧ (getKey t "version").isSome ∧
     (getKey t "external_port").isSome ∧ (getKey t "network_api_port").isSome ∧
     (getKey t "proxy").isSome) := by
  rcases resolveTop_some_cases cwd t0 t h with ⟨t1, rfl, hk, _⟩
  exact ⟨topChain_pres_isSome _ _ hk, topChain_keys t1⟩

theorem resolveTop_idem (cwd cwd' : String) (t0 t : Dict)
    (h : resolveTop cwd t0 = some t) : resolveTop cwd' t = some t := by
  have hks := resolveTop_keys cwd t0 t h
  unfold resolveTop
  rw [if_pos hks.1]
  simp only [Option.bind_eq_bind, Option.some_bind, Option.some.injEq]
  exact topChain_of_keys t hks.2.1 hks.2.2.1 hks.2.2.2.1 hks.2.2.2.2.1
    hks.2.2.2.2.2.1 hks.2.2.2.2.2.2

theorem nodeDefaults1_pres (n : Dict) (k : String) (v : Val)
    (h : getKey n k = some v) : getKey (nodeDefaults1 n) k = some v := by
  unfold nodeDefaults1
  exact getKey_setDefault_of_some _ _ _ _ _ (getKey_setDefault_of_some _ _ _ _ _
    (getKey_setDefault_of_some _ _ _ _ _ h))

theorem nodeDefaults1_keys (n : Dict) :
    ((getKey (nodeDefaults1 n) "disk_size").isSome ∧
     (getKey (nodeDefaults1 n) "preallocated").isSome ∧
     (getKey (nodeDefaults1 n) "os_variant").isSome) := by
  unfold nodeDefaults1
  refine ⟨?_, ?_, ?_⟩ <;>
    repeat
      first
      | (rw [getKey_setDefault_same]; simp)
      | apply isSome_setDefault

theorem nodeDefaults1_of_keys (n : Dict)
    (h1 : (getKey n "disk_size").isSome) (h2 : (getKey n "preallocated").isSome)
    (h3 : (getKey n "os_variant").isSome) : nodeDefaults1 n = n := by
  unfold nodeDefaults1
  rw [setDefault_of_isSome _ _ _ h1, setDefault_of_isSome _ _ _ h2,
    setDefault_of_isSome _ _ _ h3]

theorem bmcChain_pres (n : Dict) (k : String) (v : Val)
    (h : getKey n k = some v) : getKey (bmcChain n) k = some v := by
  unfold bmcChain
  exact getKey_setDefault_of_some _ _ _ _ _ (getKey_setDefault_of_some _ _ _ _ _
    (getKey_setDefault_of_some _ _ _ _ _ h))

theorem bmcChain_keys (n : Dict) :
    ((getKey (bmcChain n) "bmc_ip").isSome ∧
     (getKey (bmcChain n) "bmc_user").isSome ∧
     (getKey (bmcChain n) "bmc_password").isSome) := by
  unfold bmcChain
  refine ⟨?_, ?_, ?_⟩ <;>
    repeat
      first
      | (rw [getKey_setDefault_same]; simp)
      | apply isSome_setDefault

theorem bmcChain_of_keys (n : Dict)
    (h1 : (getKey n "bmc_ip").isSome) (h2 : (getKey n "bmc_user").isSome)
    (h3 : (getKey n "bmc_password").isSome) : bmcChain n = n := by
  unfold bmcChain
  rw [setDefault_of_isSome _ _ _ h1, setDefault_of_isSome _ _ _ h2,
    setDefault_of_isSome _ _ _ h3]

theorem nodeDefaults2_some_cases (top n0 n : Dict)
    (h : nodeDefaults2 top n0 = some n) :
    n = bmcChain n0 ∨ ∃ cn nm, getKey top "name" = some cn ∧
      getKey (bmcChain n0) "name" = some nm ∧
      n = bmcChain n0 ++ [("image_path", Val.vstr (pathJoin
        ("/home/" ++ pyStr cn ++ "_guests_images") (pyStr nm ++ ".qcow2")))] := by
  unfold nodeDefaults2 at h
  by_cases hi : (getKey (bmcChain n0) "image_path").isSome
  · rw [if_pos hi] at h
    exact Or.inl (Option.some.inj h).symm
  · rw [if_neg hi] at h
    cases hcn : getKey top "name" with
    | none => rw [hcn] at h; simp at h
    | some cn =>
      rw [hcn] at h
      cases hnm : getKey (bmcChain n0) "name" with
      | none => rw [hnm] at h; simp at h
      | some nm =>
        rw [hnm] at h
        simp only [Option.bind_eq_bind, Option.some_bind, Option.some.injEq] at h
        exact Or.inr ⟨cn, nm, rfl, rfl, h.symm⟩

theorem nodeDefaults2_pres (top n0 n : Dict) (h : nodeDefaults2 top n0 = some n)
    (k : String) (v : Val) (hv : getKey n0 k = some v) : getKey n k = some v := by
  rcases nodeDefaults2_some_cases top n0 n h with rfl | ⟨cn, nm, _, _, rfl⟩
  · exact bmcChain_pres _ _ _ hv
  · exact getKey_append_of_some _ _ _ _ (bmcChain_pres _ _ _ hv)

theorem nodeDefaults2_keys (top n0 n : Dict) (h : nodeDefaults2 top n0 = some n) :
    ((getKey n "bmc_ip").isSome ∧ (getKey n "bmc_user").isSome ∧
     (getKey n "bmc_password").isSome ∧ (getKey n "image_path").isSome) := by
  have hb := bmcChain_keys n0
  rcases nodeDefaults2_some_cases top n0 n h with rfl | ⟨cn, nm, _, _, rfl⟩
  · refine ⟨hb.1, hb.2.1, hb.2.2, ?_⟩
    by_contra hi
    have h2 := h
    unfold nodeDefaults2 at h2
    rw [if_neg hi] at h2
    cases hcn : getKey top "name" with
    | none => rw [hcn] at h2; simp at h2
    | some cn =>
      rw [hcn] at h2
      cases hnm : getKey (bmcChain n0) "name" with
      | none => rw [hnm] at h2; simp at h2
      | some nm =>
        rw [hnm] at h2
        simp only [Option.bind_eq_bind, Option.some_bind, Option.some.injEq] at h2
        have hlen := congrArg List.length h2
        simp at hlen
  · rcases Option.isSome_iff_exists.mp hb.1 with ⟨v1, hv1⟩
    rcases Option.isSome_iff_exists.mp hb.2.1 with ⟨v2, hv2⟩
    rcases Option.isSome_iff_exists.mp hb.2.2 with ⟨v3, hv3⟩
    refine ⟨?_, ?_, ?_, ?_⟩
    · simp [getKey_append_of_some _ _ _ _ hv1]
    · simp [getKey_append_of_some _ _ _ _ hv2]
    · simp [getKey_append_of_some _ _ _ _ hv3]
    · by_cases hi : (getKey (bmcChain n0) "image_path").isSome
      · rcases Option.isSome_iff_exists.mp hi with ⟨v4, hv4⟩
        simp [getKey_append_of_some _ _ _ _ hv4]
      · rw [getKey_append_of_none _ _ _ (Option.not_isSome_iff_eq_none.mp hi)]
        simp [getKey, List.lookup]

theorem nodeDefaults2_of_keys (top n : Dict)
    (h1 : (getKey n "bmc_ip").isSome) (h2 : (getKey n "bmc_user").isSome)
    (h3 : (getKey n "bmc_password").isSome) (h4 : (getKey n "image_path").isSome) :
    nodeDefaults2 top n = some n := by
  unfold nodeDefaults2
  rw [bmcChain_of_keys n h1 h2 h3, if_pos h4]

theorem hostDefaults_pres (nap : Val) (h0 : Dict) (k : String) (v : Val)
    (h : getKey h0 k = some v) : getKey (hostDefaults nap h0) k = some v := by
  unfold hostDefaults
  exact getKey_setDefault_of_some _ _ _ _ _ (getKey_setDefault_of_some _ _ _ _ _
    (getKey_setDefault_of_some _ _ _ _ _ (getKey_setDefault_of_some _ _ _ _ _ h)))

theorem hostDefaults_keys (nap : Val) (h0 : Dict) :
    ((getKey (hostDefaults nap h0) "network_api_port").isSome ∧
     (getKey (hostDefaults nap h0) "username").isSome ∧
     (getKey (hostDefaults nap h0) "password").isSome ∧
     (getKey (hostDefaults nap h0) "pre_installed").isSome) := by
  unfold hostDefaults
  refine ⟨?_, ?_, ?_, ?_⟩ <;>
    repeat
      first
      | (rw [getKey_setDefault_same]; simp)
      | apply isSome_setDefault

theorem hostDefaults_of_keys (nap : Val) (h0 : Dict)
    (h1 : (getKey h0 "network_api_port").isSome) (h2 : (getKey h0 "username").isSome)
    (h3 : (getKey h0 "password").isSome) (h4 : (getKey h0 "pre_installed").isSome) :
    hostDefaults nap h0 = h0 := by
  unfold hostDefaults
  rw [setDefault_of_isSome _ _ _ h1, setDefault_of_isSome _ _ _ h2,
    setDefault_of_isSome _ _ _ h3, setDefault_of_isSome _ _ _ h4]

theorem getKey_setDefault_ne (d : Dict) (k k' : String) (v : Val)
    (hne : k' ≠ k) : getKey (setDefault d k v) k' = getKey d k' := by
  unfold setDefault
  by_cases hk : (getKey d k).isSome
  · rw [if_pos hk]
  · rw [if_neg hk]
    cases h : getKey d k' with
    | some w => exact getKey_append_of_some _ _ _ _ h
    | none =>
      rw [getKey_append_of_none _ _ _ h]
      simp [getKey, List.lookup, beq_eq_false_iff_ne.mpr hne]

theorem getKey_single (k : String) (v : Val) : getKey [(k, v)] k = some v := by
  simp [getKey, List.lookup]

theorem getKey_single_ne (k k' : String) (v : Val) (hne : k' ≠ k) :
    getKey [(k, v)] k' = none := by
  simp [getKey, List.lookup, beq_eq_false_iff_ne.mpr hne]

/-- The values `hostDefaults` writes into the keys it finds absent. -/
theorem hostDefaults_defaults (nap : Val) (h0 : Dict) :
    (getKey h0 "pre_installed" = none →
      getKey (hostDefaults nap h0) "pre_installed" = some (Val.vstr "True")) ∧
    (getKey h0 "username" = none →
      getKey (hostDefaults nap h0) "username" = some (Val.vstr "core")) ∧
    (getKey h0 "password" = none →
      getKey (hostDefaults nap h0) "password" = some Val.vnull) ∧
    (getKey h0 "network_api_port" = none →
      getKey (hostDefaults nap h0) "network_api_port" = some nap) := by
  unfold hostDefaults
  refine ⟨?_, ?_, ?_, ?_⟩ <;> intro habs
  · rw [getKey_setDefault_same]
    rw [getKey_setDefault_ne _ _ _ _ (by decide), getKey_setDefault_ne _ _ _ _ (by decide),
      getKey_setDefault_ne _ _ _ _ (by decide), habs]
    rfl
  · rw [getKey_setDefault_ne _ _ _ _ (by decide), getKey_setDefault_ne _ _ _ _ (by decide),
      getKey_setDefault_same, getKey_setDefault_ne _ _ _ _ (by decide), habs]
    rfl
  · rw [getKey_setDefault_ne _ _ _ _ (by decide), getKey_setDefault_same,
      getKey_setDefault_ne _ _ _ _ (by decide), getKey_setDefault_ne _ _ _ _ (by decide), habs]
    rfl
  · rw [getKey_setDefault_ne _ _ _ _ (by decide), getKey_setDefault_ne _ _ _ _ (by decide),
      getKey_setDefault_ne _ _ _ _ (by decide), getKey_setDefault_same, habs]
    rfl

theorem forall₂_comp {α β γ : Type} {r1 : α → β → Prop} {r2 : α → γ → Prop}
    {r3 : β → γ → Prop} (hr : ∀ a b c, r1 a b → r2 a c → r3 b c) :
    ∀ {l1 : List α} {l2 : List β} {l3 : List γ},
      List.Forall₂ r1 l1 l2 → List.Forall₂ r2 l1 l3 → List.Forall₂ r3 l2 l3 := by
  intro l1
  induction l1 with
  | nil =>
    intro l2 l3 h12 h13
    cases h12; cases h13; exact List.Forall₂.nil
  | cons a t ih =>
    intro l2 l3 h12 h13
    cases h12 with
    | cons hab ht2 =>
      cases h13 with
      | cons hac ht3 =>
        exact List.Forall₂.cons (hr _ _ _ hab hac) (ih ht2 ht3)

theorem resolveTop_total (cwd : String) (t0 : Dict)
    (h : (getKey t0 "name").isSome) : ∃ t, resolveTop cwd t0 = some t := by
  unfold resolveTop
  by_cases hk : (getKey t0 "kubeconfig").isSome
  · rw [if_pos hk]
    exact ⟨_, rfl⟩
  · rw [if_neg hk]
    rcases Option.isSome_iff_exists.mp h with ⟨nm, hnm⟩
    rw [hnm]
    exact ⟨_, rfl⟩

/-- C1.  As stated the claim fails on the code: `_load_full_config` replaces
`fullConfig` by `clusters[0]`, so the defaulting loop's
`self.fullConfig["clusters"]` raises `KeyError: 'clusters'` and document-level
construction never succeeds — first conjunct, evaluated at the document
`{"clusters": [{"name": "mycluster"}]}`.  The per-cluster defaulting body
itself (the loop body, `resolveCluster`) does behave as claimed: for a
cluster with a `name` and without `masters`/`workers`/`hosts`, resolution
succeeds and maps each of the three keys to an empty, present list — second
conjunct. -/
theorem construct_keyerror_and_empty_lists :
    (constructSpec "/root"
      [⟨[("name", Val.vstr "mycluster")], none, none, none⟩] = none) ∧
    ∀ (cwd : String) (cc : RawCluster), (getKey cc.top "name").isSome →
      cc.masters = none → cc.workers = none → cc.hosts = none →
      ∃ c, resolveCluster cwd cc = some c ∧
        c.masters = [] ∧ c.workers = [] ∧ c.hosts = [] := by
  constructor
  · rfl
  · intro cwd cc hname hm hw hh
    rcases resolveTop_total cwd cc.top hname with ⟨top, htop⟩
    rcases Option.isSome_iff_exists.mp
      (resolveTop_keys cwd cc.top top htop).2.2.2.2.2.1 with ⟨nap, hnap⟩
    refine ⟨⟨top, [], [], []⟩, ?_, rfl, rfl, rfl⟩
    rw [resolveCluster_eq_some_iff]
    refine ⟨top, [], [], [], [], nap, htop, ?_, ?_, ?_, ?_, hnap, rfl⟩ <;>
      simp only [hm, hw, hh] <;> rfl

/-- Witness for `construct_keyerror_and_empty_lists`: the per-cluster part at
the concrete cluster `{"name": "mycluster"}`. -/
theorem construct_empty_lists_witness :
    ∃ c, resolveCluster "/root"
        ⟨[("name", Val.vstr "mycluster")], none, none, none⟩ = some c ∧
      c.masters = [] ∧ c.workers = [] ∧ c.hosts = [] :=
  construct_keyerror_and_empty_lists.2 "/root"
    ⟨[("name", Val.vstr "mycluster")], none, none, none⟩ (by decide) rfl rfl rfl

theorem forall₂_append {α β : Type} {R : α → β → Prop}
    {l₁ l₂ : List α} {u₁ u₂ : List β} (h1 : List.Forall₂ R l₁ u₁)
    (h2 : List.Forall₂ R l₂ u₂) : List.Forall₂ R (l₁ ++ l₂) (u₁ ++ u₂) := by
  induction h1 with
  | nil => exact h2
  | cons hab _ ih => exact List.Forall₂.cons hab ih

theorem mapM_map {α β γ : Type} (f : β → Option γ) (g : α → β) (l : List α) :
    (l.map g).mapM f = l.mapM (fun a => f (g a)) := by
  induction l with
  | nil => rfl
  | cons a t ih => rw [List.map_cons, List.mapM_cons, List.mapM_cons, ih]

theorem mapM_congr {α β : Type} (f g : α → Option β) (l : List α)
    (h : ∀ x ∈ l, f x = g x) : l.mapM f = l.mapM g := by
  induction l with
  | nil => rfl
  | cons a t ih =>
    rw [List.mapM_cons, List.mapM_cons, h a (List.mem_cons_self a t),
      ih (fun x hx => h x (List.mem_cons_of_mem a hx))]

theorem map_eq_of_forall₂ {α β : Type} (f : α → Option β) (l : List α)
    (l' : List β) (h : List.Forall₂ (fun a b => f a = some b) l l') :
    l.map f = l'.map some := by
  induction h with
  | nil => rfl
  | cons hab _ ih => rw [List.map_cons, List.map_cons, hab, ih]

theorem getKey_nodeDefaults1_node (n : Dict) :
    getKey (nodeDefaults1 n) "node" = getKey n "node" := by
  unfold nodeDefaults1
  rw [getKey_setDefault_ne _ _ _ _ (by decide), getKey_setDefault_ne _ _ _ _ (by decide),
    getKey_setDefault_ne _ _ _ _ (by decide)]

theorem count_one_of_mem (names0 vs : List Val) (hnodup : names0.Nodup)
    (v : Val) (hv : v ∈ vs) :
    (names0 ++ newVals names0 vs).count v = 1 := by
  rw [List.count_append]
  by_cases hmem : v ∈ names0
  · have hnot : v ∉ newVals names0 vs :=
      fun hc => not_mem_seen_of_mem_newVals _ _ _ hc hmem
    rw [List.count_eq_one_of_mem hnodup hmem, List.count_eq_zero.mpr hnot]
  · have hv' : v ∈ newVals names0 vs := by
      rcases List.mem_append.mp (newVals_subset_mem names0 vs v hv) with h1 | h2
      · exact absurd h1 hmem
      · exact h2
    rw [List.count_eq_zero.mpr hmem,
      List.count_eq_one_of_mem (newVals_nodup _ _) hv']

theorem mapM_name_hosts (nap : Val) (hosts0 : List Dict) (names0 vs : List Val)
    (hF : List.Forall₂ (fun h v => getKey h "name" = some v) hosts0 names0) :
    ((hosts0 ++ (newVals names0 vs).map (fun v => [("name", v)])).map
        (hostDefaults nap)).mapM (fun h => getKey h "name") =
      some (names0 ++ newVals names0 vs) := by
  rw [mapM_eq_some_iff, List.map_append]
  refine forall₂_append ?_ ?_
  · rw [List.forall₂_map_left_iff]
    exact hF.imp (fun a b hab => hostDefaults_pres _ _ _ _ hab)
  · rw [List.map_map, List.forall₂_map_left_iff]
    exact List.forall₂_same.mpr (fun v _ =>
      hostDefaults_pres _ _ _ _ (getKey_single "name" v))

/-- C2 counterexample.  The claim as stated fails when the input `hosts`
list itself contains two entries with the same name: for the cluster
`{name: c, masters: [{name: m1, node: A}], hosts: [{name: A}, {name: A}]}`
the node value `"A"` occurs among the masters, yet after resolution the
hosts list holds two entries named `"A"` (the synthesis loop only avoids
adding a third), not exactly one. -/
theorem hosts_duplicate_cex :
    (resolveCluster "/w" ⟨[("name", Val.vstr "c")],
        some [[("name", Val.vstr "m1"), ("node", Val.vstr "A")]], none,
        some [[("name", Val.vstr "A")], [("name", Val.vstr "A")]]⟩).map
      (fun c => ((c.hosts.filter
          (fun h => getKey h "name" == some (Val.vstr "A"))).length,
        c.masters.map (fun n => getKey n "node"))) =
      some (2, [some (Val.vstr "A")]) := by
  decide

/-- C2 amended: provided the input host entries carry pairwise-distinct
names, the resolved hosts list is, in order, the input entries followed by
one synthesized entry per distinct `node` value (among `masters ++ workers`)
without an input entry, in order of first appearance; each `node` value then
names exactly one entry. -/
theorem hosts_one_entry_per_node (cwd : String) (cc : RawCluster) (c : Cluster)
    (names0 nodeVals : List Val)
    (h : resolveCluster cwd cc = some c)
    (hnames : (cc.hosts.getD []).mapM (fun h => getKey h "name") = some names0)
    (hnodup : names0.Nodup)
    (hnodes : (cc.masters.getD [] ++ cc.workers.getD []).mapM
      (fun n => getKey n "node") = some nodeVals) :
    c.hosts.map (fun h => getKey h "name") =
      (names0 ++ newVals names0 nodeVals).map some ∧
    ∀ v ∈ nodeVals, (names0 ++ newVals names0 nodeVals).count v = 1 := by
  rcases (resolveCluster_eq_some_iff cwd cc c).mp h with
    ⟨top, names0', hosts1, ms2, ws2, nap, htop, hnames', haddH, hms, hws, hnap, hc⟩
  have hn0 : names0' = names0 := Option.some.inj (hnames'.symm.trans hnames)
  rw [hn0] at haddH
  have hmapnodes : ((cc.masters.getD []).map nodeDefaults1 ++
      (cc.workers.getD []).map nodeDefaults1).mapM
        (fun n => getKey n "node") = some nodeVals := by
    rw [← List.map_append, mapM_map,
      mapM_congr _ _ _ (fun x _ => getKey_nodeDefaults1_node x)]
    exact hnodes
  rw [addHosts_eq, hmapnodes, Option.map_some'] at haddH
  have hh1 : hosts1 = cc.hosts.getD [] ++
      (newVals names0 nodeVals).map (fun v => [("name", v)]) :=
    (Option.some.inj haddH).symm
  subst hh1
  have hFnames : List.Forall₂ (fun h v => getKey h "name" = some v)
      (cc.hosts.getD []) names0 := (mapM_eq_some_iff _ _ _).mp hnames
  refine ⟨?_, fun v hv => count_one_of_mem names0 nodeVals hnodup v hv⟩
  rw [hc]
  exact map_eq_of_forall₂ _ _ _ ((mapM_eq_some_iff _ _ _).mp
    (mapM_name_hosts nap (cc.hosts.getD []) names0 nodeVals hFnames))

/-- Witness for `hosts_one_entry_per_node`: the cluster
`{name: c, masters: [{name: m1, node: A}], hosts: [{name: H}]}`. -/
theorem hosts_one_entry_witness :
    ∃ c, resolveCluster "/w" ⟨[("name", Val.vstr "c")],
        some [[("name", Val.vstr "m1"), ("node", Val.vstr "A")]], none,
        some [[("name", Val.vstr "H")]]⟩ = some c ∧
      (c.hosts.map (fun h => getKey h "name") =
        ([Val.vstr "H"] ++ newVals [Val.vstr "H"] [Val.vstr "A"]).map some ∧
      ∀ v ∈ [Val.vstr "A"],
        ([Val.vstr "H"] ++ newVals [Val.vstr "H"] [Val.vstr "A"]).count v = 1) := by
  cases hc : resolveCluster "/w" ⟨[("name", Val.vstr "c")],
      some [[("name", Val.vstr "m1"), ("node", Val.vstr "A")]], none,
      some [[("name", Val.vstr "H")]]⟩ with
  | none => exact absurd hc (by decide)
  | some c =>
    exact ⟨c, rfl, hosts_one_entry_per_node "/w" _ c [Val.vstr "H"] [Val.vstr "A"]
      hc (by decide) (by decide) (by decide)⟩

theorem forall₂_mem_right {α β : Type} {r : α → β → Prop} {l1 : List α}
    {l2 : List β} (h : List.Forall₂ r l1 l2) (b : β) (hb : b ∈ l2) :
    ∃ a ∈ l1, r a b := by
  induction h with
  | nil => cases hb
  | cons hab _ ih =>
    rcases List.mem_cons.mp hb with rfl | hmem
    · exact ⟨_, List.mem_cons_self _ _, hab⟩
    · rcases ih hmem with ⟨a, ha, har⟩
      exact ⟨a, List.mem_cons_of_mem _ ha, har⟩

theorem map_id_of {α : Type} (f : α → α) (l : List α)
    (h : ∀ x ∈ l, f x = x) : l.map f = l := by
  induction l with
  | nil => rfl
  | cons a t ih =>
    rw [List.map_cons, h a (List.mem_cons_self a t),
      ih (fun x hx => h x (List.mem_cons_of_mem a hx))]

theorem nodeDefaults2_pres_isSome (top n0 n : Dict)
    (h : nodeDefaults2 top n0 = some n) (k : String)
    (hk : (getKey n0 k).isSome) : (getKey n k).isSome := by
  rcases Option.isSome_iff_exists.mp hk with ⟨v, hv⟩
  simp [nodeDefaults2_pres top n0 n h k v hv]

theorem forall₂_map_self {α : Type} {r : α → α → Prop} (f : α → α) (l : List α)
    (h : ∀ x ∈ l, r x (f x)) : List.Forall₂ r l (l.map f) := by
  induction l with
  | nil => exact List.Forall₂.nil
  | cons a t ih =>
    exact List.Forall₂.cons (h a (List.mem_cons_self a t))
      (ih (fun x hx => h x (List.mem_cons_of_mem a hx)))

/-- C3: the default cascade is additive — every binding of the input
(top-level, per node, per host entry) survives unchanged into the resolved
cluster — and idempotent — rereading a resolved cluster as input and
resolving it again returns it unchanged. -/
theorem defaults_additive_idempotent (cwd : String) (cc : RawCluster)
    (c : Cluster) (h : resolveCluster cwd cc = some c) :
    ((∀ k v, getKey cc.top k = some v → getKey c.top k = some v) ∧
     List.Forall₂ (fun n n' => ∀ k v, getKey n k = some v → getKey n' k = some v)
       (cc.masters.getD []) c.masters ∧
     List.Forall₂ (fun n n' => ∀ k v, getKey n k = some v → getKey n' k = some v)
       (cc.workers.getD []) c.workers ∧
     List.Forall₂ (fun h0 h' => ∀ k v, getKey h0 k = some v → getKey h' k = some v)
       (cc.hosts.getD []) (c.hosts.take (cc.hosts.getD []).length)) ∧
    resolveCluster cwd (Cluster.toRaw c) = some c := by
  rcases (resolveCluster_eq_some_iff cwd cc c).mp h with
    ⟨top, names0, hosts1, ms2, ws2, nap, htop, hnames, haddH, hms, hws, hnap, hc⟩
  rw [addHosts_eq] at haddH
  rcases Option.map_eq_some'.mp haddH with ⟨vs, hvs, hh1⟩
  subst hh1
  subst hc
  have hmsF : List.Forall₂ (fun m1 m2 => nodeDefaults2 top m1 = some m2)
      ((cc.masters.getD []).map nodeDefaults1) ms2 := (mapM_eq_some_iff _ _ _).mp hms
  have hwsF : List.Forall₂ (fun m1 m2 => nodeDefaults2 top m1 = some m2)
      ((cc.workers.getD []).map nodeDefaults1) ws2 := (mapM_eq_some_iff _ _ _).mp hws
  have hallF : List.Forall₂ (fun m1 m2 => nodeDefaults2 top m1 = some m2)
      ((cc.masters.getD []).map nodeDefaults1 ++ (cc.workers.getD []).map nodeDefaults1)
      (ms2 ++ ws2) := forall₂_append hmsF hwsF
  have hvsF : List.Forall₂ (fun n v => getKey n "node" = some v)
      ((cc.masters.getD []).map nodeDefaults1 ++ (cc.workers.getD []).map nodeDefaults1)
      vs := (mapM_eq_some_iff _ _ _).mp hvs
  have hddAll : ∀ m ∈ ms2 ++ ws2, nodeDefaults1 m = m := by
    intro m hm
    rcases forall₂_mem_right hallF m hm with ⟨m1, hm1, hrel⟩
    have hm1' : ∃ n, m1 = nodeDefaults1 n := by
      rcases List.mem_append.mp hm1 with h1 | h2
      · rcases List.mem_map.mp h1 with ⟨n, _, rfl⟩; exact ⟨n, rfl⟩
      · rcases List.mem_map.mp h2 with ⟨n, _, rfl⟩; exact ⟨n, rfl⟩
    rcases hm1' with ⟨n, rfl⟩
    have hk := nodeDefaults1_keys n
    exact nodeDefaults1_of_keys m
      (nodeDefaults2_pres_isSome _ _ _ hrel _ hk.1)
      (nodeDefaults2_pres_isSome _ _ _ hrel _ hk.2.1)
      (nodeDefaults2_pres_isSome _ _ _ hrel _ hk.2.2)
  have hmapMs : ms2.map nodeDefaults1 = ms2 :=
    map_id_of _ _ (fun m hm => hddAll m (List.mem_append_left _ hm))
  have hmapWs : ws2.map nodeDefaults1 = ws2 :=
    map_id_of _ _ (fun m hm => hddAll m (List.mem_append_right _ hm))
  have hvs2F : List.Forall₂ (fun m v => getKey m "node" = some v) (ms2 ++ ws2) vs :=
    forall₂_comp (fun n m v hrel hv => nodeDefaults2_pres top n m hrel "node" v hv)
      hallF hvsF
  have hvs2 : (ms2 ++ ws2).mapM (fun n => getKey n "node") = some vs :=
    (mapM_eq_some_iff _ _ _).mpr hvs2F
  have hFnames0 : List.Forall₂ (fun h0 v => getKey h0 "name" = some v)
      (cc.hosts.getD []) names0 := (mapM_eq_some_iff _ _ _).mp hnames
  have hnames1 := mapM_name_hosts nap (cc.hosts.getD []) names0 vs hFnames0
  have hnew2 : newVals (names0 ++ newVals names0 vs) vs = [] :=
    newVals_eq_nil _ _ (fun v hv => newVals_subset_mem names0 vs v hv)
  have hhostid : ∀ h' ∈ ((cc.hosts.getD [] ++
      (newVals names0 vs).map (fun v => [("name", v)])).map (hostDefaults nap)),
      hostDefaults nap h' = h' := by
    intro h' hh'
    rcases List.mem_map.mp hh' with ⟨h0, _, rfl⟩
    have hk := hostDefaults_keys nap h0
    exact hostDefaults_of_keys nap _ hk.1 hk.2.1 hk.2.2.1 hk.2.2.2
  have hms2self : ms2.mapM (nodeDefaults2 top) = some ms2 :=
    mapM_eq_some_self _ _ (fun m hm => by
      rcases forall₂_mem_right hmsF m hm with ⟨m1, _, hrel⟩
      have hk := nodeDefaults2_keys top m1 m hrel
      exact nodeDefaults2_of_keys top m hk.1 hk.2.1 hk.2.2.1 hk.2.2.2)
  have hws2self : ws2.mapM (nodeDefaults2 top) = some ws2 :=
    mapM_eq_some_self _ _ (fun m hm => by
      rcases forall₂_mem_right hwsF m hm with ⟨m1, _, hrel⟩
      have hk := nodeDefaults2_keys top m1 m hrel
      exact nodeDefaults2_of_keys top m hk.1 hk.2.1 hk.2.2.1 hk.2.2.2)
  constructor
  · refine ⟨fun k v hv => resolveTop_pres cwd cc.top top htop k v hv, ?_, ?_, ?_⟩
    · exact (List.forall₂_map_left_iff.mp hmsF).imp
        (fun n m2 hrel k v hv =>
          nodeDefaults2_pres top _ _ hrel k v (nodeDefaults1_pres n k v hv))
    · exact (List.forall₂_map_left_iff.mp hwsF).imp
        (fun n m2 hrel k v hv =>
          nodeDefaults2_pres top _ _ hrel k v (nodeDefaults1_pres n k v hv))
    · have htake : (((cc.hosts.getD []) ++
          (newVals names0 vs).map (fun v => [("name", v)])).map
            (hostDefaults nap)).take (cc.hosts.getD []).length =
          (cc.hosts.getD []).map (hostDefaults nap) := by
        rw [List.map_append]
        exact List.take_left' (List.length_map _ _)
      rw [htake]
      exact forall₂_map_self _ _ (fun h0 _ => fun k v hv =>
        hostDefaults_pres nap h0 k v hv)
  · rw [resolveCluster_eq_some_iff]
    refine ⟨top, names0 ++ newVals names0 vs,
      ((cc.hosts.getD []) ++ (newVals names0 vs).map (fun v => [("name", v)])).map
        (hostDefaults nap), ms2, ws2, nap,
      resolveTop_idem cwd cwd _ _ htop, hnames1, ?_, ?_, ?_, hnap, ?_⟩
    · show addHosts _ _ (ms2.map nodeDefaults1 ++ ws2.map nodeDefaults1) = _
      rw [hmapMs, hmapWs, addHosts_eq, hvs2, Option.map_some', hnew2]
      simp [Cluster.toRaw, Function.comp]
    · show (ms2.map nodeDefaults1).mapM (nodeDefaults2 top) = some ms2
      rw [hmapMs]; exact hms2self
    · show (ws2.map nodeDefaults1).mapM (nodeDefaults2 top) = some ws2
      rw [hmapWs]; exact hws2self
    · show _ = Cluster.mk _ _ _ _
      congr 1
      exact (map_id_of _ _ hhostid).symm

/-- Witness for `defaults_additive_idempotent`: a concrete cluster with one
master and no explicit hosts. -/
theorem defaults_idempotent_witness :
    ∃ c, resolveCluster "/w" ⟨[("name", Val.vstr "mycluster")],
        some [[("name", Val.vstr "m1"), ("node", Val.vstr "A")]], none, none⟩ =
      some c ∧ resolveCluster "/w" (Cluster.toRaw c) = some c := by
  cases hc : resolveCluster "/w" ⟨[("name", Val.vstr "mycluster")],
      some [[("name", Val.vstr "m1"), ("node", Val.vstr "A")]], none, none⟩ with
  | none => exact absurd hc (by decide)
  | some c =>
    exact ⟨c, rfl, (defaults_additive_idempotent "/w" _ c hc).2⟩

/-- C9 counterexample.  The default written into an absent `pre_installed`
field is the Python *string* `"True"` (`cc["pre_installed"] = "True"`), not
the boolean `true` the claim states: evaluated on the cluster
`{name: c, hosts: [{name: h}]}`. -/
theorem pre_installed_string_cex :
    (resolveCluster "/w" ⟨[("name", Val.vstr "c")], none, none,
        some [[("name", Val.vstr "h")]]⟩).map
      (fun c => c.hosts.map (fun h => getKey h "pre_installed")) =
      some [some (Val.vstr "True")] ∧ Val.vstr "True" ≠ Val.vbool true :=
  ⟨by decide, by decide⟩

/-- C9 amended: a host entry lacking `pre_installed` gets the string
`"True"` (not a boolean); the same pass defaults `username` to `"core"` and
`password` to `None`; synthesized host entries get all three defaults. -/
theorem host_entry_defaults (cwd : String) (cc : RawCluster) (c : Cluster)
    (h : resolveCluster cwd cc = some c) :
    List.Forall₂ (fun h0 h' =>
        (getKey h0 "pre_installed" = none →
          getKey h' "pre_installed" = some (Val.vstr "True")) ∧
        (getKey h0 "username" = none →
          getKey h' "username" = some (Val.vstr "core")) ∧
        (getKey h0 "password" = none → getKey h' "password" = some Val.vnull))
      (cc.hosts.getD []) (c.hosts.take (cc.hosts.getD []).length) ∧
    ∀ h' ∈ c.hosts.drop (cc.hosts.getD []).length,
      getKey h' "pre_installed" = some (Val.vstr "True") ∧
      getKey h' "username" = some (Val.vstr "core") ∧
      getKey h' "password" = some Val.vnull := by
  rcases (resolveCluster_eq_some_iff cwd cc c).mp h with
    ⟨top, names0, hosts1, ms2, ws2, nap, htop, hnames, haddH, hms, hws, hnap, hc⟩
  rw [addHosts_eq] at haddH
  rcases Option.map_eq_some'.mp haddH with ⟨vs, hvs, hh1⟩
  subst hh1
  subst hc
  constructor
  · have htake : (((cc.hosts.getD []) ++
        (newVals names0 vs).map (fun v => [("name", v)])).map
          (hostDefaults nap)).take (cc.hosts.getD []).length =
        (cc.hosts.getD []).map (hostDefaults nap) := by
      rw [List.map_append]
      exact List.take_left' (List.length_map _ _)
    rw [htake]
    refine forall₂_map_self _ _ (fun h0 _ => ?_)
    have hd := hostDefaults_defaults nap h0
    exact ⟨hd.1, hd.2.1, hd.2.2.1⟩
  · have hdrop : (((cc.hosts.getD []) ++
        (newVals names0 vs).map (fun v => [("name", v)])).map
          (hostDefaults nap)).drop (cc.hosts.getD []).length =
        ((newVals names0 vs).map (fun v => [("name", v)])).map
          (hostDefaults nap) := by
      rw [List.map_append]
      exact List.drop_left' (List.length_map _ _)
    rw [hdrop]
    intro h' hh'
    rcases List.mem_map.mp hh' with ⟨h0, hh0, rfl⟩
    rcases List.mem_map.mp hh0 with ⟨v, _, rfl⟩
    have hd := hostDefaults_defaults nap [("name", v)]
    exact ⟨hd.1 (getKey_single_ne _ _ _ (by decide)),
      hd.2.1 (getKey_single_ne _ _ _ (by decide)),
      hd.2.2.1 (getKey_single_ne _ _ _ (by decide))⟩

/-- Witness for `host_entry_defaults`: the cluster
`{name: c, masters: [{name: m1, node: A}], hosts: [{name: H}]}`. -/
theorem host_entry_defaults_witness :
    ∃ c, resolveCluster "/w" ⟨[("name", Val.vstr "c")],
        some [[("name", Val.vstr "m1"), ("node", Val.vstr "A")]], none,
        some [[("name", Val.vstr "H")]]⟩ = some c ∧
      ∀ h' ∈ c.hosts.drop 1,
        getKey h' "pre_installed" = some (Val.vstr "True") ∧
        getKey h' "username" = some (Val.vstr "core") ∧
        getKey h' "password" = some Val.vnull := by
  cases hc : resolveCluster "/w" ⟨[("name", Val.vstr "c")],
      some [[("name", Val.vstr "m1"), ("node", Val.vstr "A")]], none,
      some [[("name", Val.vstr "H")]]⟩ with
  | none => exact absurd hc (by decide)
  | some c =>
    exact ⟨c, rfl, (host_entry_defaults "/w" _ c hc).2⟩

/-- C8: `worker_number` returns the topology-resolved name of the indexed
worker with every non-digit character stripped; in particular `"worker-12"`
yields `"12"` and `"bf-worker-3b"` yields `"3"`. -/
theorem worker_number_strips_nondigits :
    (∀ (ws : List String) (a : Nat) (nm : String), ws.get? a = some nm →
      worker_number ws a = some (digitsOnly nm)) ∧
    digitsOnly "worker-12" = "12" ∧ digitsOnly "bf-worker-3b" = "3" := by
  refine ⟨fun ws a nm hnm => ?_, by decide, by decide⟩
  unfold worker_number
  rw [hnm, Option.map_some']

/-- Witness for `worker_number_strips_nondigits`. -/
theorem worker_number_witness :
    worker_number ["worker-12"] 0 = some (digitsOnly "worker-12") :=
  worker_number_strips_nondigits.1 ["worker-12"] 0 "worker-12" rfl

theorem leads_append (pat : List Char) :
    ∀ (xs zs : List Char), pat.length ≤ xs.length →
      leads pat (xs ++ zs) = leads pat xs := by
  induction pat with
  | nil => intro xs zs _; rfl
  | cons a as ih =>
    intro xs zs hlen
    cases xs with
    | nil => simp at hlen
    | cons b bs =>
      simp only [List.cons_append, leads]
      rw [show bs.append zs = bs ++ zs from rfl, ih bs zs (by simpa using hlen)]

theorem isAddEntry_dumpxml : isAddEntry dumpxmlCmd = false := by decide

theorem isAddEntry_leases : isAddEntry leasesCmd = false := by decide

theorem isAddEntry_delHostCmd (name : String) :
    isAddEntry (delHostCmd name) = false := by
  unfold isAddEntry delHostCmd
  rw [show ("virsh net-update default delete ip-dhcp-host \"<host name='" ++
      name ++ "'/>\" --live --config").toList =
    "virsh net-update default delete ip-dhcp-host \"<host name='".toList ++
      (name.toList ++ "'/>\" --live --config".toList) by
    simp [String.toList]]
  rw [leads_append _ _ _ (by decide)]
  decide

theorem isAddEntry_addHostCmd (mac name ip : String) :
    isAddEntry (addHostCmd mac name ip) = true := by
  unfold isAddEntry addHostCmd
  rw [show ("virsh net-update default add ip-dhcp-host \"<host mac='" ++ mac ++
      "' name='" ++ name ++ "' ip='" ++ ip ++ "'/>\" --live --config").toList =
    "virsh net-update default add ip-dhcp-host \"<host mac='".toList ++
      (mac.toList ++ "' name='".toList ++ name.toList ++ "' ip='".toList ++
        ip.toList ++ "'/>\" --live --config".toList) by
    simp [String.toList]]
  rw [leads_append _ _ _ (by decide)]
  decide

/-- The full case analysis of `setup_dhcp_entry` for a node with an IP. -/
theorem setup_dhcp_entry_shape (env : Env) (cfg : NodeConfig) (ip : String)
    (hip : cfg.ip = some ip) :
    setup_dhcp_entry env cfg =
      if (env.results dumpxmlCmd).returncode != 0 then ([dumpxmlCmd], true)
      else if containsSub (env.results dumpxmlCmd).out ("'" ++ cfg.name ++ "'") then
        (if (env.results (delHostCmd cfg.name)).returncode != 0 then
          ([dumpxmlCmd, delHostCmd cfg.name], true)
        else if containsSub (env.results leasesCmd).out (cfg.name ++ " ") then
          ([dumpxmlCmd, delHostCmd cfg.name, leasesCmd], true)
        else
          ([dumpxmlCmd, delHostCmd cfg.name, leasesCmd,
            addHostCmd (pyOptStr cfg.mac) cfg.name ip],
           (env.results (addHostCmd (pyOptStr cfg.mac) cfg.name ip)).returncode != 0))
      else if containsSub (env.results leasesCmd).out (cfg.name ++ " ") then
        ([dumpxmlCmd, leasesCmd], true)
      else
        ([dumpxmlCmd, leasesCmd, addHostCmd (pyOptStr cfg.mac) cfg.name ip],
         (env.results (addHostCmd (pyOptStr cfg.mac) cfg.name ip)).returncode != 0) := by
  unfold setup_dhcp_entry
  rw [hip]
  cases h1 : (env.results dumpxmlCmd).returncode != 0 <;>
    cases h2 : containsSub (env.results dumpxmlCmd).out ("'" ++ cfg.name ++ "'") <;>
      cases h3 : (env.results (delHostCmd cfg.name)).returncode != 0 <;>
        cases h4 : containsSub (env.results leasesCmd).out (cfg.name ++ " ") <;>
          simp [seqT, runOrDie, h1, h2, h3, h4]

theorem limit_dhcp_range_not_fatal (env : Env) (oldRange newRange : String) :
    (limit_dhcp_range env oldRange newRange).2 = false := by
  unfold limit_dhcp_range seqT
  split <;> simp_all <;> split <;> simp_all

theorem ensure_started_fatal_iff (env : Env) (api_network bridge_xml : String) :
    (ensure_started env api_network bridge_xml).2 =
      (((env.results "virsh net-undefine default").returncode != 0 &&
          !(containsSub (env.results "virsh net-undefine default").err
            "Network not found")) ||
        (env.results ("virsh net-define " ++ bridge_xml)).returncode != 0 ||
        (env.results "virsh net-start default").returncode != 0) := by
  unfold ensure_started seqT runOrDie
  cases h1 : ((env.results "virsh net-undefine default").returncode != 0 &&
      !(containsSub (env.results "virsh net-undefine default").err
        "Network not found")) <;>
    cases h2 : (env.results ("virsh net-define " ++ bridge_xml)).returncode != 0 <;>
      cases h3 : (env.results "virsh net-start default").returncode != 0 <;>
        simp [h1, h2, h3]

theorem ensure_started_undefine_stops (env : Env) (api_network bridge_xml : String)
    (h : ((env.results "virsh net-undefine default").returncode != 0 &&
      !(containsSub (env.results "virsh net-undefine default").err
        "Network not found")) = true) :
    ensure_started env api_network bridge_xml =
      (["virsh net-destroy default", "virsh net-undefine default"], true) := by
  unfold ensure_started seqT runOrDie
  simp [h]

theorem ensure_started_define_stops (env : Env) (api_network bridge_xml : String)
    (hu : ((env.results "virsh net-undefine default").returncode != 0 &&
      !(containsSub (env.results "virsh net-undefine default").err
        "Network not found")) = false)
    (hd : ((env.results ("virsh net-define " ++ bridge_xml)).returncode != 0) = true) :
    ensure_started env api_network bridge_xml =
      (["virsh net-destroy default", "virsh net-undefine default",
        "ip link delete virbr0", "virsh net-define " ++ bridge_xml], true) := by
  unfold ensure_started seqT runOrDie
  simp [hu, hd]

theorem ensure_started_ok (env : Env) (api_network bridge_xml : String)
    (hundef : (env.results "virsh net-undefine default").returncode = 0 ∨
      containsSub (env.results "virsh net-undefine default").err
        "Network not found" = true)
    (hdef : (env.results ("virsh net-define " ++ bridge_xml)).returncode = 0)
    (hstart : (env.results "virsh net-start default").returncode = 0) :
    ensure_started env api_network bridge_xml =
      (["virsh net-destroy default", "virsh net-undefine default",
        "ip link delete virbr0", "virsh net-define " ++ bridge_xml,
        "ip link set " ++ api_network ++ " down", "virsh net-start default",
        "ip link set " ++ api_network ++ " up"], false) := by
  have hu : ((env.results "virsh net-undefine default").returncode != 0 &&
      !(containsSub (env.results "virsh net-undefine default").err
        "Network not found")) = false := by
    rcases hundef with h | h <;> simp [h]
  unfold ensure_started seqT runOrDie
  simp [hu, hdef, hstart]

theorem configure_recreate_trace (env : Env) (api : String)
    (hqemu : containsSub (env.readFile qemuConfPath) qemuUserRoot = true)
    (henable : (env.results "systemctl enable libvirtd --now").returncode = 0)
    (hrec : containsSub (env.results dumpxmlCmd).out "stp='off'" = false ∨
      containsSub (env.results dumpxmlCmd).out "range start='192.168.122.2'" = true)
    (hundef : (env.results "virsh net-undefine default").returncode = 0 ∨
      containsSub (env.results "virsh net-undefine default").err
        "Network not found" = true)
    (hdef : (env.results "virsh net-define /tmp/vir_bridge.xml").returncode = 0)
    (hstart : (env.results "virsh net-start default").returncode = 0) :
    ∃ rest, (configure env api).1 =
      ["systemctl enable libvirtd --now", dumpxmlCmd,
       "virsh net-destroy default", "virsh net-undefine default",
       "ip link delete virbr0", "virsh net-define /tmp/vir_bridge.xml",
       "ip link set " ++ api ++ " down", "virsh net-start default",
       "ip link set " ++ api ++ " up"] ++ rest := by
  have hens := ensure_started_ok env api "/tmp/vir_bridge.xml" hundef hdef hstart
  have hcond : (!(containsSub (env.results dumpxmlCmd).out "stp='off'") ||
      containsSub (env.results dumpxmlCmd).out "range start='192.168.122.2'") = true := by
    rcases hrec with h | h <;> simp [h]
  have hlim := limit_dhcp_range_not_fatal env "192.168.122.2" "192.168.122.129"
  refine ⟨(limit_dhcp_range env "192.168.122.2" "192.168.122.129").1 ++
    ["systemctl restart libvirtd"], ?_⟩
  unfold configure ensure_run_as_root
  rw [hqemu]
  simp [seqT, runOrDie, henable, hcond, hens, hlim]

/-- C4: when the inspected network XML lacks `stp='off'` (or still holds the
stale default range start `192.168.122.2`), `configure` issues net-destroy,
net-undefine, net-define and net-start in that relative order, takes the API
interface down strictly before net-start and brings it up strictly after —
given that the commands the code treats as fatal succeed (daemon enable,
undefine up to "Network not found", define, start) and the daemon is already
configured to run as root. -/
theorem configure_recreation_order (env : Env) (api : String)
    (hqemu : containsSub (env.readFile qemuConfPath) qemuUserRoot = true)
    (henable : (env.results "systemctl enable libvirtd --now").returncode = 0)
    (hrec : containsSub (env.results dumpxmlCmd).out "stp='off'" = false ∨
      containsSub (env.results dumpxmlCmd).out "range start='192.168.122.2'" = true)
    (hundef : (env.results "virsh net-undefine default").returncode = 0 ∨
      containsSub (env.results "virsh net-undefine default").err
        "Network not found" = true)
    (hdef : (env.results "virsh net-define /tmp/vir_bridge.xml").returncode = 0)
    (hstart : (env.results "virsh net-start default").returncode = 0) :
    issuedBefore (configure env api).1
      "virsh net-destroy default" "virsh net-undefine default" ∧
    issuedBefore (configure env api).1
      "virsh net-undefine default" "virsh net-define /tmp/vir_bridge.xml" ∧
    issuedBefore (configure env api).1
      "virsh net-define /tmp/vir_bridge.xml" "virsh net-start default" ∧
    issuedBefore (configure env api).1
      ("ip link set " ++ api ++ " down") "virsh net-start default" ∧
    issuedBefore (configure env api).1
      "virsh net-start default" ("ip link set " ++ api ++ " up") := by
  obtain ⟨rest, ht⟩ := configure_recreate_trace env api hqemu henable hrec
    hundef hdef hstart
  have hget : ∀ (i : Nat) (a : String), (["systemctl enable libvirtd --now",
      dumpxmlCmd, "virsh net-destroy default", "virsh net-undefine default",
      "ip link delete virbr0", "virsh net-define /tmp/vir_bridge.xml",
      "ip link set " ++ api ++ " down", "virsh net-start default",
      "ip link set " ++ api ++ " up"] : List String).get? i = some a →
      i < 9 → (configure env api).1.get? i = some a := by
    intro i a ha hi
    rw [ht, List.get?_append (by simpa using hi)]
    exact ha
  exact ⟨⟨2, 3, by omega, hget 2 _ rfl (by omega), hget 3 _ rfl (by omega)⟩,
    ⟨3, 5, by omega, hget 3 _ rfl (by omega), hget 5 _ rfl (by omega)⟩,
    ⟨5, 7, by omega, hget 5 _ rfl (by omega), hget 7 _ rfl (by omega)⟩,
    ⟨6, 7, by omega, hget 6 _ rfl (by omega), hget 7 _ rfl (by omega)⟩,
    ⟨7, 8, by omega, hget 7 _ rfl (by omega), hget 8 _ rfl (by omega)⟩⟩

/-- Witness for `configure_recreation_order`: an environment where every
command succeeds with empty output (so the dumped XML lacks `stp='off'`) and
the daemon config already holds `user = "root"`. -/
theorem configure_recreation_order_witness :
    issuedBefore (configure
        ⟨fun _ => ⟨0, "", ""⟩, fun _ => "\nuser = \"root\""⟩ "eno1").1
      ("ip link set eno1 down") "virsh net-start default" :=
  (configure_recreation_order ⟨fun _ => ⟨0, "", ""⟩, fun _ => "\nuser = \"root\""⟩
    "eno1" (by decide) rfl (Or.inl (by decide)) (Or.inl rfl) rfl rfl).2.2.2.1

theorem isDelEntry_dumpxml : isDelEntry dumpxmlCmd = false := by decide

theorem isDelEntry_leases : isDelEntry leasesCmd = false := by decide

theorem isDelEntry_addHostCmd (mac name ip : String) :
    isDelEntry (addHostCmd mac name ip) = false := by
  unfold isDelEntry addHostCmd
  rw [show ("virsh net-update default add ip-dhcp-host \"<host mac='" ++ mac ++
      "' name='" ++ name ++ "' ip='" ++ ip ++ "'/>\" --live --config").toList =
    "virsh net-update default add ip-dhcp-host \"<host mac='".toList ++
      (mac.toList ++ "' name='".toList ++ name.toList ++ "' ip='".toList ++
        ip.toList ++ "'/>\" --live --config".toList) by
    simp [String.toList]]
  rw [leads_append _ _ _ (by decide)]
  decide

/-- C5: whenever the node's name followed by a space occurs in the active
DHCP lease output, `setup_dhcp_entry` ends fatally and no add-entry command
is ever issued, whether or not the name occurs in the static leases; and a
name occurring only as a proper prefix of a longer leased name does not
trigger the abort — with every command succeeding and `bm-worker-20` in the
lease table, registering `bm-worker-2` proceeds to the add-entry command and
ends without a fatal exit. -/
theorem active_lease_collision_aborts :
    (∀ (env : Env) (cfg : NodeConfig),
      containsSub (env.results leasesCmd).out (cfg.name ++ " ") = true →
      (setup_dhcp_entry env cfg).2 = true ∧
      ∀ c ∈ (setup_dhcp_entry env cfg).1, isAddEntry c = false) ∧
    setup_dhcp_entry envLeaseMiss
        ⟨"bm-worker-2", some "192.168.122.5", some "52:54:00:ee:01:01"⟩ =
      ([dumpxmlCmd, leasesCmd,
        addHostCmd "52:54:00:ee:01:01" "bm-worker-2" "192.168.122.5"], false) := by
  constructor
  · intro env cfg hcol
    cases hip : cfg.ip with
    | none => simp [setup_dhcp_entry, hip]
    | some ip =>
      rw [setup_dhcp_entry_shape env cfg ip hip]
      by_cases h1 : ((env.results dumpxmlCmd).returncode != 0) = true
      · simp [h1, isAddEntry_dumpxml]
      · by_cases h2 : containsSub (env.results dumpxmlCmd).out
            ("'" ++ cfg.name ++ "'") = true
        · by_cases h3 : ((env.results (delHostCmd cfg.name)).returncode != 0) = true
          · simp [h1, h2, h3, isAddEntry_dumpxml, isAddEntry_delHostCmd]
          · simp [h1, h2, h3, hcol, isAddEntry_dumpxml, isAddEntry_delHostCmd,
              isAddEntry_leases]
        · simp [h1, h2, hcol, isAddEntry_dumpxml, isAddEntry_leases]
  · decide

/-- Witness for `active_lease_collision_aborts`: the name `bm-worker-2`
occurs trailing-space-delimited in the lease output of `envLeaseHit`. -/
theorem active_lease_collision_witness :
    (setup_dhcp_entry envLeaseHit ⟨"bm-worker-2", some "192.168.122.5",
      some "52:54:00:ee:01:01"⟩).2 = true ∧
    ∀ c ∈ (setup_dhcp_entry envLeaseHit ⟨"bm-worker-2", some "192.168.122.5",
      some "52:54:00:ee:01:01"⟩).1, isAddEntry c = false :=
  active_lease_collision_aborts.1 envLeaseHit
    ⟨"bm-worker-2", some "192.168.122.5", some "52:54:00:ee:01:01"⟩ (by decide)

/-- C6: when the node's quoted name occurs in the static-lease XML (with
whatever MAC the stale entry carries), `setup_dhcp_entry` issues the
delete-entry command strictly before the add-entry command (shown by the
full trace and the ordering witness); when it does not occur, no
delete-entry command is issued on any path. -/
theorem stale_static_entry_deleted_first (env : Env) (cfg : NodeConfig)
    (ip : String) (hip : cfg.ip = some ip) :
    (containsSub (env.results dumpxmlCmd).out ("'" ++ cfg.name ++ "'") = true →
      (env.results dumpxmlCmd).returncode = 0 →
      (env.results (delHostCmd cfg.name)).returncode = 0 →
      containsSub (env.results leasesCmd).out (cfg.name ++ " ") = false →
      setup_dhcp_entry env cfg =
        ([dumpxmlCmd, delHostCmd cfg.name, leasesCmd,
          addHostCmd (pyOptStr cfg.mac) cfg.name ip],
         (env.results (addHostCmd (pyOptStr cfg.mac) cfg.name ip)).returncode != 0) ∧
      issuedBefore (setup_dhcp_entry env cfg).1 (delHostCmd cfg.name)
        (addHostCmd (pyOptStr cfg.mac) cfg.name ip)) ∧
    (containsSub (env.results dumpxmlCmd).out ("'" ++ cfg.name ++ "'") = false →
      ∀ c ∈ (setup_dhcp_entry env cfg).1, isDelEntry c = false) := by
  constructor
  · intro hstat hdump hdel hlease
    have hsh : setup_dhcp_entry env cfg =
        ([dumpxmlCmd, delHostCmd cfg.name, leasesCmd,
          addHostCmd (pyOptStr cfg.mac) cfg.name ip],
         (env.results (addHostCmd (pyOptStr cfg.mac) cfg.name ip)).returncode != 0) := by
      rw [setup_dhcp_entry_shape env cfg ip hip]
      simp [hstat, hdump, hdel, hlease]
    refine ⟨hsh, 1, 3, by omega, ?_, ?_⟩ <;> rw [hsh] <;> rfl
  · intro hstat
    rw [setup_dhcp_entry_shape env cfg ip hip]
    by_cases h1 : ((env.results dumpxmlCmd).returncode != 0) = true
    · simp [h1, isDelEntry_dumpxml]
    · by_cases h4 : containsSub (env.results leasesCmd).out
          (cfg.name ++ " ") = true
      · simp [h1, hstat, h4, isDelEntry_dumpxml, isDelEntry_leases]
      · simp [h1, hstat, h4, isDelEntry_dumpxml, isDelEntry_leases,
          isDelEntry_addHostCmd]

/-- Witness for `stale_static_entry_deleted_first`: an environment whose
static-lease XML already holds `name='bm-worker-2'`. -/
theorem stale_static_entry_witness :
    issuedBefore (setup_dhcp_entry
      ⟨fun c => if c = dumpxmlCmd then ⟨0, "<host mac='aa' name='bm-worker-2' ip='x'/>", ""⟩
        else ⟨0, "", ""⟩, fun _ => ""⟩
      ⟨"bm-worker-2", some "192.168.122.5", some "52:54:00:ee:01:01"⟩).1
      (delHostCmd "bm-worker-2")
      (addHostCmd "52:54:00:ee:01:01" "bm-worker-2" "192.168.122.5") :=
  ((stale_static_entry_deleted_first
      ⟨fun c => if c = dumpxmlCmd then ⟨0, "<host mac='aa' name='bm-worker-2' ip='x'/>", ""⟩
        else ⟨0, "", ""⟩, fun _ => ""⟩
      ⟨"bm-worker-2", some "192.168.122.5", some "52:54:00:ee:01:01"⟩
      "192.168.122.5" rfl).1 (by decide) (by decide) (by decide) (by decide)).2

/-- C10: with every command succeeding, `setup_dhcp_entry` ends fatally
exactly when the node's `ip` is absent or the trailing-space name collision
occurs in the active leases; the MAC is never checked, and for a node with
an IP but no MAC the add-entry command is still issued — last in the trace —
with the missing MAC interpolated as Python renders `None`. -/
theorem setup_dhcp_entry_fatal_iff (env : Env) (cfg : NodeConfig)
    (hok : ∀ c, (env.results c).returncode = 0) :
    ((setup_dhcp_entry env cfg).2 = true ↔
      cfg.ip = none ∨
      containsSub (env.results leasesCmd).out (cfg.name ++ " ") = true) ∧
    (∀ ip, cfg.ip = some ip →
      containsSub (env.results leasesCmd).out (cfg.name ++ " ") = false →
      (setup_dhcp_entry env cfg).1.getLast? =
        some (addHostCmd (pyOptStr cfg.mac) cfg.name ip)) ∧
    pyOptStr none = "None" := by
  refine ⟨?_, ?_, rfl⟩
  · cases hip : cfg.ip with
    | none => simp [setup_dhcp_entry, hip]
    | some ip =>
      rw [setup_dhcp_entry_shape env cfg ip hip]
      by_cases h2 : containsSub (env.results dumpxmlCmd).out
          ("'" ++ cfg.name ++ "'") = true
      · by_cases h4 : containsSub (env.results leasesCmd).out
            (cfg.name ++ " ") = true
        · simp [hok, h2, h4]
        · simp [hok, h2, h4]
      · by_cases h4 : containsSub (env.results leasesCmd).out
            (cfg.name ++ " ") = true
        · simp [hok, h2, h4]
        · simp [hok, h2, h4]
  · intro ip hip hlease
    rw [setup_dhcp_entry_shape env cfg ip hip]
    by_cases h2 : containsSub (env.results dumpxmlCmd).out
        ("'" ++ cfg.name ++ "'") = true
    · simp [hok, h2, hlease]
    · simp [hok, h2, hlease]

/-- Witness for `setup_dhcp_entry_fatal_iff`: every command succeeds with
empty output; the node has an IP but no MAC. -/
theorem setup_dhcp_entry_fatal_iff_witness :
    ((setup_dhcp_entry ⟨fun _ => ⟨0, "", ""⟩, fun _ => ""⟩
        ⟨"bm-worker-2", some "192.168.122.5", none⟩).2 = true ↔
      (some "192.168.122.5" = (none : Option String)) ∨
      containsSub ((Env.mk (fun _ => ⟨0, "", ""⟩) (fun _ => "")).results
        leasesCmd).out ("bm-worker-2" ++ " ") = true) ∧
    (setup_dhcp_entry ⟨fun _ => ⟨0, "", ""⟩, fun _ => ""⟩
        ⟨"bm-worker-2", some "192.168.122.5", none⟩).1.getLast? =
      some (addHostCmd (pyOptStr none) "bm-worker-2" "192.168.122.5") := by
  have h := setup_dhcp_entry_fatal_iff ⟨fun _ => ⟨0, "", ""⟩, fun _ => ""⟩
    ⟨"bm-worker-2", some "192.168.122.5", none⟩ (fun _ => rfl)
  exact ⟨h.1, h.2.1 "192.168.122.5" rfl (by decide)⟩

/-- C7 counterexample.  The claim says the DHCP-range delete and add issued
by `limit_dhcp_range` abort on any non-zero exit; in the code both go
through `run` (results only logged), so with the delete failing (exit 1)
the add is still issued and the run ends without a fatal abort. -/
theorem limit_dhcp_range_ignores_failure_cex :
    limit_dhcp_range envRangeDelFails "192.168.122.2" "192.168.122.129" =
      ([dumpxmlCmd, delRangeCmd "192.168.122.2",
        addRangeCmd "192.168.122.129"], false) := by
  decide

/-- C7 amended: `limit_dhcp_range` never aborts — its delete and add ignore
failure like destroy, the stale-bridge removal and the interface down/up
commands (their return codes are unconstrained below); in `_ensure_started`
the run is fatal exactly when undefine fails without "Network not found" in
its stderr, or net-define or net-start exits non-zero; a fatal undefine or
define stops the sequence at the failing command. -/
theorem reconciler_failure_semantics :
    (∀ (env : Env) (oldRange newRange : String),
      (limit_dhcp_range env oldRange newRange).2 = false) ∧
    (∀ (env : Env) (api b : String),
      (ensure_started env api b).2 =
        (((env.results "virsh net-undefine default").returncode != 0 &&
            !(containsSub (env.results "virsh net-undefine default").err
              "Network not found")) ||
          (env.results ("virsh net-define " ++ b)).returncode != 0 ||
          (env.results "virsh net-start default").returncode != 0)) ∧
    (∀ (env : Env) (api b : String),
      ((env.results "virsh net-undefine default").returncode != 0 &&
        !(containsSub (env.results "virsh net-undefine default").err
          "Network not found")) = true →
      ensure_started env api b =
        (["virsh net-destroy default", "virsh net-undefine default"], true)) ∧
    (∀ (env : Env) (api b : String),
      ((env.results "virsh net-undefine default").returncode != 0 &&
        !(containsSub (env.results "virsh net-undefine default").err
          "Network not found")) = false →
      ((env.results ("virsh net-define " ++ b)).returncode != 0) = true →
      ensure_started env api b =
        (["virsh net-destroy default", "virsh net-undefine default",
          "ip link delete virbr0", "virsh net-define " ++ b], true)) :=
  ⟨limit_dhcp_range_not_fatal, ensure_started_fatal_iff,
    ensure_started_undefine_stops, ensure_started_define_stops⟩

/-- Witness for `reconciler_failure_semantics`: a failing undefine (stderr
without "Network not found") stops the sequence after two commands. -/
theorem reconciler_failure_witness :
    ensure_started envUndefineFails "eno1" "/tmp/vir_bridge.xml" =
      (["virsh net-destroy default", "virsh net-undefine default"], true) :=
  reconciler_failure_semantics.2.2.1 envUndefineFails "eno1" "/tmp/vir_bridge.xml"
    (by decide)
